import Mathlib

/-!
Verification development for the `cpp-scoped-lock` component.

Source files embedded here:
* `src/components/cpp-scoped-lock/include/ReliableSharedMutex.hpp` —
  the hand-rolled reader-writer mutex built on FreeRTOS semaphores, and the
  `shared_lock`/`unique_lock` guard templates.
* `src/components/cpp-scoped-lock/include/LockableObject.hpp` —
  the scoped-access wrapper over `std::shared_timed_mutex`.
* `src/components/cpp-scoped-lock/include/ScopedLockAccess.hpp` —
  the earlier scoped-access wrapper over `std::shared_mutex`.

The embedding has two levels:
* `RSM`: the bodies of `try_lock` and `try_lock_shared` as sequential
  functions on the mutex fields (`m_reader_count`, `m_writer_waiting`, the
  two semaphores), faithful to the branch structure of the source.
* `RSMSys`: an interleaved transition system over the same fields, whose
  atomic steps are exactly the critical sections the code executes under
  `m_read_count_mutex`, plus the semaphore operations the code performs
  outside those sections.  This is the model used for the concurrency
  claims.
-/

namespace RSM

/-- Fields of `ReliableSharedMutex` (ReliableSharedMutex.hpp lines 16-20):
`m_reader_count` (a C `int`, modelled as `Int`), `m_writer_waiting`,
availability of the binary `m_write_semaphore`, and availability of
`m_read_count_mutex` at the moment a call begins. -/
structure MState where
  reader_count : Int
  writer_waiting : Bool
  write_sem : Bool
  count_mutex : Bool
deriving DecidableEq, Repr

/-- Embedding of `ReliableSharedMutex::try_lock` (lines 59-80).  The whole
body runs under `m_read_count_mutex`, which is taken with timeout 0 and
given back on every path, so from the caller's viewpoint the call is one
atomic step; `count_mutex` records whether that take succeeds.  Returns
the `bool` result and the state of the fields after the call. -/
def try_lock (s : MState) : Bool × MState :=
  if ¬ s.count_mutex then (false, s)
  else if 0 < s.reader_count then (false, s)
  else if ¬ s.write_sem then (false, s)
  else (true, { s with write_sem := false, writer_waiting := true })

/-- Embedding of `ReliableSharedMutex::unlock` (lines 82-89): clears
`m_writer_waiting` and gives back the write semaphore. -/
def unlock (s : MState) : MState :=
  { s with writer_waiting := false, write_sem := true }

/-- Embedding of `ReliableSharedMutex::unlock_shared` (lines 133-137):
decrements `m_reader_count` under the count mutex. -/
def unlock_shared (s : MState) : MState :=
  { s with reader_count := s.reader_count - 1 }

/-- The `max_wait` constant of `try_lock_shared` (line 109):
`pdMS_TO_TICKS(50)`, i.e. a 50 millisecond window. -/
def max_wait : Nat := 50

/-- Embedding of the retry loop of `ReliableSharedMutex::try_lock_shared`
(lines 106-131).  `acq k` tells whether the `k`-th attempt to take
`m_read_count_mutex` (timeout 5 ms) succeeds, and `wait k` how much time
that attempt consumed before failing; a failed attempt is followed by
`vTaskDelay(1)`, so at least one time unit elapses per failed iteration
(`wait k + 1`).  `n` counts attempts made so far and `elapsed` the time
since `start_time`.  Returns the `bool` result, the field state after the
call, and the total number of take attempts. -/
def try_lock_shared_go (acq : Nat → Bool) (wait : Nat → Nat) (s : MState)
    (n elapsed : Nat) : Bool × MState × Nat :=
  if h : max_wait ≤ elapsed then (false, s, n)
  else if acq n then
    if s.writer_waiting then (false, s, n + 1)
    else (true, { s with reader_count := s.reader_count + 1 }, n + 1)
  else try_lock_shared_go acq wait s (n + 1) (elapsed + (wait n + 1))
termination_by max_wait - elapsed
decreasing_by omega

/-- Embedding of `ReliableSharedMutex::try_lock_shared` (lines 106-131):
the retry loop started with zero attempts and zero elapsed time. -/
def try_lock_shared (acq : Nat → Bool) (wait : Nat → Nat) (s : MState) :
    Bool × MState × Nat :=
  try_lock_shared_go acq wait s 0 0

end RSM

namespace GuardM

/-- State of a `shared_lock`/`unique_lock` guard object
(ReliableSharedMutex.hpp lines 141-229): whether `m_mutex` is non-null and
whether `m_owns` is set.  The two templates have identical member logic
(only the release call differs), so one embedding covers both. -/
structure Guard where
  hasMutex : Bool
  owns : Bool
deriving DecidableEq, Repr

/-- Default constructor (lines 149, 194): null mutex, not owning. -/
def mkDefault : Guard := ⟨false, false⟩

/-- Blocking constructor (lines 151-154, 196-199): calls the blocking
acquire, then sets `m_owns = true`. -/
def mkBlocking : Guard := ⟨true, true⟩

/-- Try constructor (lines 156-158, 201-203): `m_owns` is the result of
the non-blocking try acquire. -/
def mkTry (acquired : Bool) : Guard := ⟨true, acquired⟩

/-- Destructor (lines 160-164, 205-209): number of release calls it
performs — one when `m_owns && m_mutex`, zero otherwise. -/
def destructReleases (g : Guard) : Nat :=
  if g.owns && g.hasMutex then 1 else 0

/-- Move constructor (lines 171-175, 216-220): the destination copies both
fields, the source is left with a null mutex and `m_owns = false`.
Returns (destination, moved-from source). -/
def moveCtor (g : Guard) : Guard × Guard :=
  (⟨g.hasMutex, g.owns⟩, ⟨false, false⟩)

/-- Total releases over a guard lifetime: the guard is moved `n` times,
each moved-from husk is destroyed, and finally the live guard is
destroyed. -/
def chainReleases (g : Guard) : Nat → Nat
  | 0 => destructReleases g
  | n + 1 => destructReleases (moveCtor g).2 + chainReleases (moveCtor g).1 n

end GuardM

namespace AccessM

/-- Embedding of `LockableObject::ScopedAccess` (LockableObject.hpp lines
51-81) and `ScopedLockAccess::Access` (ScopedLockAccess.hpp lines 44-79),
whose accessor members are identical: a reference to the protected object
(`m_protectedRef` / `m_db`, modelled by the value it denotes) and the
`owns_lock()` state of the contained scoped lock. -/
structure ScopedAccess (α : Type) where
  protectedRef : α
  lockOwns : Bool

/-- The dereference `operator->` (LockableObject.hpp line 65,
ScopedLockAccess.hpp line 63): returns `&m_protectedRef` unconditionally —
a total function of the stored reference with no inspection of the lock
state, no assertion and no trap. -/
def arrowOp {α : Type} (a : ScopedAccess α) : α := a.protectedRef

/-- The `operator bool` (LockableObject.hpp lines 71-74): reports
`m_lock.owns_lock()`. -/
def boolOp {α : Type} (a : ScopedAccess α) : Bool := a.lockOwns

end AccessM

namespace LockObj

/-- Timed acquisition against an environment, modelling the C++ standard
semantics of `std::shared_timed_mutex::try_lock_shared_for` /
`try_lock_for` (an external collaborator of the repository; the mutex type
is chosen at LockableObject.hpp line 17).  `ok u` tells whether the
acquisition can be granted at instant `u` (for a shared acquire: no
exclusive holder is active).  The call issued at time `t` with timeout `d`
blocks until the first instant in `[t, t + d)` at which `ok` holds and
succeeds then; if there is none it fails at time `t + d`.  Returns
(acquired, completion time). -/
def tryAcquireFor (ok : Nat → Bool) : Nat → Nat → Bool × Nat
  | t, 0 => (false, t)
  | t, d + 1 => if ok t then (true, t) else tryAcquireFor ok (t + 1) d

/-- The constant `LockableObject::minBlockTime` (LockableObject.hpp line
22): `std::chrono::milliseconds(10)`.  Durations are modelled in
milliseconds as `Int` (a `std::chrono` duration may be negative). -/
def minBlockTime : Int := 10

/-- Embedding of the no-argument `LockableObject::getReadAccess`
(LockableObject.hpp lines 89-92): builds the `ReadAccess` from a
`read_lock` constructed with timeout `minBlockTime`, i.e. a timed shared
acquisition with a 10 ms window.  `wa u` tells whether an exclusive
(write) holder is active at instant `u`. -/
def getReadAccess (wa : Nat → Bool) (t : Nat) : Bool × Nat :=
  tryAcquireFor (fun u => ! wa u) t minBlockTime.toNat

/-- The timeout adjustment shared by the timed getters (LockableObject.hpp
lines 99 and 114): `timeout_duration < minBlockTime ? minBlockTime :
timeout_duration`. -/
def actualTimeout (d : Int) : Int :=
  if d < minBlockTime then minBlockTime else d

/-- Embedding of `LockableObject::getReadAccess(timeout_duration)`
(LockableObject.hpp lines 95-101): a timed shared acquisition with the
adjusted timeout. -/
def getReadAccessTimed (wa : Nat → Bool) (t : Nat) (d : Int) : Bool × Nat :=
  tryAcquireFor (fun u => ! wa u) t (actualTimeout d).toNat

/-- Embedding of `LockableObject::getWriteAccess(timeout_duration)`
(LockableObject.hpp lines 110-116): a timed exclusive acquisition with the
adjusted timeout.  `free u` tells whether the exclusive acquisition can be
granted at instant `u` (no holder of any kind is active). -/
def getWriteAccessTimed (free : Nat → Bool) (t : Nat) (d : Int) : Bool × Nat :=
  tryAcquireFor free t (actualTimeout d).toNat

/-- Embedding of `LockableObject::reset` (LockableObject.hpp lines
119-125): the body runs `m_protected = {}` only inside
`if (auto lock = getWriteAccess())`.  `acquired` is the `operator bool`
outcome of that write access; `v` the protected value before the call;
the result is the protected value after the call. -/
def resetVal {α : Type} [Inhabited α] (acquired : Bool) (v : α) : α :=
  if acquired then default else v

end LockObj

namespace SLAObj

/-- Embedding of the no-argument `ScopedLockAccess::getReadAccess`
(ScopedLockAccess.hpp lines 84-87): builds the `ReadAccess` with
`blocking = false`, so the `read_lock` is constructed with
`std::try_to_lock` — a genuinely non-blocking try acquire that succeeds
exactly when no exclusive holder is active at the call instant.  Returns
(acquired, completion time): the call always completes at the instant it
was issued. -/
def getReadAccess (wa : Nat → Bool) (t : Nat) : Bool × Nat :=
  (! wa t, t)

/-- Embedding of `ScopedLockAccess::resetDb` (ScopedLockAccess.hpp lines
92-96): takes the blocking write lock (`lock_for_writing`, which always
eventually succeeds) and unconditionally replaces the value with a
default-constructed one. -/
def resetDb {α : Type} [Inhabited α] (_v : α) : α := default

end SLAObj

namespace RSMSys

/-- Program counter of a thread with respect to its exclusive-lock
operations on one `ReliableSharedMutex`:
* `idle` — not inside `lock`/`try_lock`/`unlock` and not holding;
* `flagSet` — inside `lock()`, has executed lines 44-45 (flag set), is in
  the wait loop of lines 48-52;
* `semWait` — inside `lock()`, has passed the reader check and released
  the count mutex (line 55), is blocked in line 56 on `m_write_semaphore`;
* `holdingL` — `lock()` returned: holds exclusive, acquired via `lock`;
* `holdingT` — `try_lock()` returned `true`: holds exclusive;
* `unlockedHalf` — inside `unlock()`, has executed lines 84-86 (flag
  cleared) but not yet line 88 (semaphore give). -/
inductive WPc where
  | idle
  | flagSet
  | semWait
  | holdingL
  | holdingT
  | unlockedHalf
deriving DecidableEq, Repr

/-- Whether a program counter denotes a thread that has taken
`m_write_semaphore` and not yet given it back. -/
def isOwner : WPc → Bool
  | .holdingL => true
  | .holdingT => true
  | .unlockedHalf => true
  | _ => false

/-- Whether a program counter denotes a thread holding the exclusive lock
(between a successful `lock`/`try_lock` return and its `unlock` call). -/
def isHolding : WPc → Bool
  | .holdingL => true
  | .holdingT => true
  | _ => false

/-- Global state of one `ReliableSharedMutex` shared by `n` writer threads
and any number of reader threads: the program counters of the writers, the
fields `m_reader_count` and `m_writer_waiting`, availability of the binary
`m_write_semaphore`, and the ghost count `holders` of threads currently
holding a shared lock (readers are identityless: their acquisitions and
releases are single atomic sections, so only their count matters). -/
structure Sys (n : Nat) where
  wpc : Fin n → WPc
  reader_count : Int
  holders : Nat
  writer_waiting : Bool
  write_sem : Bool

/-- Pointwise update of one writer's program counter. -/
def upd {n : Nat} (f : Fin n → WPc) (i : Fin n) (v : WPc) : Fin n → WPc :=
  fun j => if j = i then v else f j

/-- One atomic step of the interleaved execution.  Each constructor is one
critical section the code executes under `m_read_count_mutex`, or one
semaphore operation performed outside such a section
(ReliableSharedMutex.hpp lines 42-137).  The preconditions of
`unlockClearFlag` and `sharedRelease` encode the usage contract that
`unlock` / `unlock_shared` is called only by a current holder. -/
inductive Step {n : Nat} : Sys n → Sys n → Prop where
  | lockSetFlag (s : Sys n) (i : Fin n) :
      s.wpc i = .idle →
      Step s { s with wpc := upd s.wpc i .flagSet, writer_waiting := true }
  | lockPassReaders (s : Sys n) (i : Fin n) :
      s.wpc i = .flagSet → ¬ 0 < s.reader_count →
      Step s { s with wpc := upd s.wpc i .semWait }
  | lockAcquire (s : Sys n) (i : Fin n) :
      s.wpc i = .semWait → s.write_sem = true →
      Step s { s with wpc := upd s.wpc i .holdingL, write_sem := false }
  | tryLockOk (s : Sys n) (i : Fin n) :
      s.wpc i = .idle → ¬ 0 < s.reader_count → s.write_sem = true →
      Step s { s with wpc := upd s.wpc i .holdingT, write_sem := false,
                      writer_waiting := true }
  | unlockClearFlag (s : Sys n) (i : Fin n) :
      isHolding (s.wpc i) = true →
      Step s { s with wpc := upd s.wpc i .unlockedHalf,
                      writer_waiting := false }
  | unlockGiveSem (s : Sys n) (i : Fin n) :
      s.wpc i = .unlockedHalf →
      Step s { s with wpc := upd s.wpc i .idle, write_sem := true }
  | sharedAcquire (s : Sys n) :
      s.writer_waiting = false →
      Step s { s with reader_count := s.reader_count + 1,
                      holders := s.holders + 1 }
  | sharedRelease (s : Sys n) :
      0 < s.holders →
      Step s { s with reader_count := s.reader_count - 1,
                      holders := s.holders - 1 }

/-- Initial state: all writers idle, no readers, flag clear, write
semaphore available (constructor, ReliableSharedMutex.hpp lines 23-31). -/
def init (n : Nat) : Sys n :=
  ⟨fun _ => .idle, 0, 0, false, true⟩

/-- States reachable from the initial state by interleaved steps. -/
inductive Reach {n : Nat} : Sys n → Prop where
  | start : Reach (init n)
  | tail {s t : Sys n} : Reach s → Step s t → Reach t

/-- Inductive invariant of the interleaved system, for any number of
writers: `m_reader_count` equals the number of shared holders (hence is
never negative); at most one thread owns the write semaphore; the write
semaphore is available exactly when no thread owns it; and a holder that
acquired through `try_lock` implies the flag is set. -/
def Inv {n : Nat} (s : Sys n) : Prop :=
  s.reader_count = (s.holders : Int)
  ∧ (∀ i j : Fin n, isOwner (s.wpc i) = true → isOwner (s.wpc j) = true → i = j)
  ∧ (s.write_sem = true ↔ ∀ i, isOwner (s.wpc i) = false)
  ∧ (∀ i, s.wpc i = .holdingT → s.writer_waiting = true)

/-! Concrete two-writer interleaving.  Writer 0 runs `lock()` to
completion, writer 1 enters `lock()` and reaches the blocking take of
`m_write_semaphore`; writer 0 then runs `unlock()`, which clears
`m_writer_waiting` and gives the semaphore; writer 1 acquires the
semaphore and `lock()` returns — writer 1 now holds the exclusive lock
while `m_writer_waiting` is `false`, so shared acquisitions succeed. -/

/-- Initial state with two writer threads. -/
def a0 : Sys 2 := init 2

/-- Writer 0 executes lines 44-45 of `lock()`: flag set. -/
def a1 : Sys 2 := { a0 with wpc := upd a0.wpc 0 .flagSet, writer_waiting := true }

/-- Writer 0 sees `m_reader_count == 0` and releases the count mutex. -/
def a2 : Sys 2 := { a1 with wpc := upd a1.wpc 0 .semWait }

/-- Writer 0 takes `m_write_semaphore`; its `lock()` returns. -/
def a3 : Sys 2 := { a2 with wpc := upd a2.wpc 0 .holdingL, write_sem := false }

/-- Writer 1 executes lines 44-45 of `lock()` (the flag is already set). -/
def a4 : Sys 2 := { a3 with wpc := upd a3.wpc 1 .flagSet, writer_waiting := true }

/-- Writer 1 sees `m_reader_count == 0` and proceeds to the semaphore. -/
def a5 : Sys 2 := { a4 with wpc := upd a4.wpc 1 .semWait }

/-- Writer 0 executes lines 84-86 of `unlock()`: flag cleared. -/
def a6 : Sys 2 :=
  { a5 with wpc := upd a5.wpc 0 .unlockedHalf, writer_waiting := false }

/-- Writer 0 executes line 88 of `unlock()`: semaphore given back. -/
def a7 : Sys 2 := { a6 with wpc := upd a6.wpc 0 .idle, write_sem := true }

/-- Writer 1 takes `m_write_semaphore`; its `lock()` returns, but the
writer-waiting flag is `false`. -/
def a8 : Sys 2 := { a7 with wpc := upd a7.wpc 1 .holdingL, write_sem := false }

/-- A reader completes `lock_shared()` / `try_lock_shared()` (the flag is
clear), while writer 1 still holds the exclusive lock. -/
def a9 : Sys 2 :=
  { a8 with reader_count := a8.reader_count + 1, holders := a8.holders + 1 }

/-! Continuation of the interleaving from `a8` for the writer-priority
claim: writer 0 starts a second `lock()` and genuinely sets the flag from
`false` to `true`, passes the reader check, and blocks on the write
semaphore (which writer 1 still owns); writer 1's `unlock()` then clears
the flag writer 0 had set, and a new shared acquisition completes even
though writer 0 has neither acquired nor released the exclusive lock. -/

/-- Writer 0 executes lines 44-45 of a new `lock()`: flag set from
`false` to `true`. -/
def b9 : Sys 2 := { a8 with wpc := upd a8.wpc 0 .flagSet, writer_waiting := true }

/-- Writer 0 sees `m_reader_count == 0` and proceeds to the semaphore,
where it blocks (writer 1 owns it). -/
def b10 : Sys 2 := { b9 with wpc := upd b9.wpc 0 .semWait }

/-- Writer 1 executes lines 84-86 of `unlock()`: the flag writer 0 set is
cleared. -/
def b11 : Sys 2 :=
  { b10 with wpc := upd b10.wpc 1 .unlockedHalf, writer_waiting := false }

/-- A reader completes a shared acquisition — before writer 0 ever
acquired the exclusive lock. -/
def b12 : Sys 2 :=
  { b11 with reader_count := b11.reader_count + 1, holders := b11.holders + 1 }

/-- Single-writer state in which the writer has just returned from a
successful `try_lock()`. -/
def w1 : Sys 1 :=
  { init 1 with wpc := upd (init 1).wpc 0 .holdingT, write_sem := false,
                writer_waiting := true }

end RSMSys

namespace LockObj

/-- Exclusive-holder environment for the counterexample: a writer is
active exactly at instant 0 and releases before instant 1. -/
def waEx : Nat → Bool := fun u => u == 0

end LockObj

/-! Theorems.  Helper lemmas come first, then one theorem per claim. -/

namespace RSMSys

/-- Updating a program counter at `i` yields the new value at `i`. -/
theorem upd_at {n : Nat} (f : Fin n → WPc) (i : Fin n) (v : WPc) :
    upd f i v i = v := by
  simp [upd]

/-- Updating a program counter at `i` leaves other indices unchanged. -/
theorem upd_ne {n : Nat} (f : Fin n → WPc) (i : Fin n) (v : WPc) (j : Fin n)
    (h : j ≠ i) : upd f i v j = f j := by
  simp [upd, h]

/-- A thread holding the exclusive lock owns the write semaphore. -/
theorem owner_of_holding (p : WPc) (h : isHolding p = true) :
    isOwner p = true := by
  cases p <;> simp_all [isHolding, isOwner]

end RSMSys

/-- C4: for every caller-supplied timeout duration passed to the timed
`getReadAccess(timeout)` or `getWriteAccess(timeout)`, the acquisition is
attempted with a timeout of at least the configured floor `minBlockTime`
(10 milliseconds): durations below the floor are raised to it
(`max minBlockTime d` equals `minBlockTime` there) and durations at or
above it are used unchanged (`max minBlockTime d` equals `d` there). -/
theorem c4_timed_access_timeout_floor (wa free : Nat → Bool) (t : Nat) (d : Int) :
    LockObj.getReadAccessTimed wa t d
      = LockObj.tryAcquireFor (fun u => ! wa u) t (max LockObj.minBlockTime d).toNat
    ∧ LockObj.getWriteAccessTimed free t d
      = LockObj.tryAcquireFor free t (max LockObj.minBlockTime d).toNat
    ∧ LockObj.minBlockTime ≤ LockObj.actualTimeout d
    ∧ LockObj.actualTimeout d = max LockObj.minBlockTime d
    ∧ LockObj.minBlockTime = 10 := by
  have hmax : LockObj.actualTimeout d = max LockObj.minBlockTime d := by
    simp only [LockObj.actualTimeout, LockObj.minBlockTime]
    rcases lt_or_le d 10 with h | h
    · simp [h, max_eq_left h.le]
    · simp [not_lt.mpr h, max_eq_right h]
  refine ⟨by rw [LockObj.getReadAccessTimed, hmax], by rw [LockObj.getWriteAccessTimed, hmax],
    ?_, hmax, rfl⟩
  rw [hmax]
  exact le_max_left _ _

/-- C5: `ReliableSharedMutex::try_lock` is non-blocking (every semaphore
take in its body uses timeout 0, and the embedding is a total function of
the call-time state); it succeeds exactly when the count mutex is free, no
readers are active and the exclusive write semaphore is immediately
obtainable; and in every failure case it returns `false` and leaves all
lock state (`m_reader_count`, `m_writer_waiting`, both semaphores)
unchanged. -/
theorem c5_try_lock_failure_leaves_state (s : RSM.MState) :
    ((RSM.try_lock s).1 = false → (RSM.try_lock s).2 = s)
    ∧ ((RSM.try_lock s).1 = true
        ↔ (s.count_mutex = true ∧ ¬ 0 < s.reader_count ∧ s.write_sem = true))
    ∧ ((RSM.try_lock s).1 = true
        → (RSM.try_lock s).2
            = { s with write_sem := false, writer_waiting := true }) := by
  unfold RSM.try_lock
  split_ifs with h1 h2 h3 <;> simp_all

/-- C7: over every guard lifetime (one constructor call, `n` moves, all
resulting objects destroyed) the underlying release operation runs exactly
once if the guard ever reached the held state and zero times otherwise:
`chainReleases` collapses to the destructor count of the originally
constructed guard, which is 1 for the blocking constructor and a
successful try, and 0 for a failed try or a default guard; and the move
constructor transfers the held/failed state to the destination while
nulling the source.  The `shared_lock` and `unique_lock` templates of
ReliableSharedMutex.hpp have identical member logic, so `GuardM.Guard`
covers both. -/
theorem c7_guard_releases_exactly_once (g : GuardM.Guard) (n : Nat) :
    GuardM.chainReleases g n = GuardM.destructReleases g
    ∧ GuardM.destructReleases GuardM.mkBlocking = 1
    ∧ GuardM.destructReleases (GuardM.mkTry true) = 1
    ∧ GuardM.destructReleases (GuardM.mkTry false) = 0
    ∧ GuardM.destructReleases GuardM.mkDefault = 0
    ∧ GuardM.moveCtor g = (g, GuardM.mkDefault) := by
  refine ⟨?_, rfl, rfl, rfl, rfl, rfl⟩
  induction n with
  | zero => rfl
  | succ n ih =>
      simpa [GuardM.chainReleases, GuardM.moveCtor, GuardM.destructReleases]
        using ih

/-- C8: `LockableObject::reset` replaces the protected value with a
freshly default-constructed one exactly when the exclusive write access
was obtained, and leaves it unchanged otherwise; `ScopedLockAccess::resetDb`
takes the blocking write lock and always replaces the value.  In the
embedding the protected value is written by no operation other than these
reset bodies, and the write sits inside the `if (auto lock =
getWriteAccess())` scope, i.e. it happens only while the exclusive lock is
held. -/
theorem c8_reset_requires_write_access (α : Type) [Inhabited α] (v : α) :
    LockObj.resetVal true v = (default : α)
    ∧ LockObj.resetVal false v = v
    ∧ SLAObj.resetDb v = (default : α) :=
  ⟨rfl, rfl, rfl⟩

/-- C9: the dereference `operator->` of both accessor classes returns the
address of the protected object with no runtime check of the holding
state: it is a total function (never asserts or traps), it ignores the
`owns_lock` state entirely, and it returns the same reference on a
non-holding accessor as on a holding one.  The only misuse protection is
the caller checking `boolOp` (the `operator bool`). -/
theorem c9_arrow_unchecked (α : Type) (r : α) (h1 h2 : Bool) :
    AccessM.arrowOp { protectedRef := r, lockOwns := h1 } = r
    ∧ AccessM.arrowOp { protectedRef := r, lockOwns := h1 }
        = AccessM.arrowOp { protectedRef := r, lockOwns := h2 }
    ∧ AccessM.boolOp { protectedRef := r, lockOwns := h1 } = h1 :=
  ⟨rfl, rfl, rfl⟩

namespace LockObj

/-- Timed acquisition completes no later than the timeout deadline. -/
theorem tryAcquireFor_completion_le (ok : Nat → Bool) (t d : Nat) :
    (tryAcquireFor ok t d).2 ≤ t + d := by
  induction d generalizing t with
  | zero => simp [tryAcquireFor]
  | succ d ih =>
      rw [tryAcquireFor]
      cases h : ok t with
      | true => simp
      | false =>
          simp only [Bool.false_eq_true, if_false]
          exact (ih (t + 1)).trans (by omega)

/-- Timed acquisition fails at the deadline when the environment refuses
it at every instant of the window. -/
theorem tryAcquireFor_all_busy (ok : Nat → Bool) (t d : Nat)
    (h : ∀ u, u < d → ok (t + u) = false) :
    tryAcquireFor ok t d = (false, t + d) := by
  induction d generalizing t with
  | zero => simp [tryAcquireFor]
  | succ d ih =>
      rw [tryAcquireFor]
      have h0 : ok t = false := by simpa using h 0 (Nat.succ_pos d)
      rw [h0]
      simp only [Bool.false_eq_true, if_false]
      have hshift : ∀ u, u < d → ok (t + 1 + u) = false := by
        intro u hu
        rw [Nat.add_assoc, Nat.add_comm 1 u]
        exact h (u + 1) (by omega)
      rw [ih (t + 1) hshift]
      have harith : t + 1 + d = t + (d + 1) := by omega
      rw [harith]

end LockObj

/-- C2 counterexample: the no-argument `LockableObject::getReadAccess`
does not build its accessor from a non-blocking guard — it passes the
`minBlockTime` (10 ms) timeout to the `read_lock` constructor
(LockableObject.hpp line 91).  In the environment `waEx`, where an
exclusive holder is active at the call instant 0 and releases before
instant 1, the call issued at instant 0 both blocks (it completes at
instant 1, after the call instant) and returns a HOLDING accessor even
though another exclusive holder was active when it was called.  This
falsifies, at a concrete input, both "the call never blocks the caller"
and "whenever another exclusive holder is active the returned Accessor
converts to false". -/
theorem c2_counterexample_blocking_read :
    LockObj.waEx 0 = true
    ∧ LockObj.getReadAccess LockObj.waEx 0 = (true, 1)
    ∧ LockObj.minBlockTime.toNat = 10 := by
  decide

/-- C2 amended: the no-argument `LockableObject::getReadAccess` attempts
the shared acquisition with the bounded `minBlockTime` (10 ms) timeout: it
blocks at most `minBlockTime` beyond the call instant (never
indefinitely), and whenever an exclusive holder remains active throughout
that whole window the returned Accessor converts to false, failing at the
deadline.  (The superseded `ScopedLockAccess::getReadAccess` is genuinely
non-blocking: it completes at the call instant and is falsy exactly when
an exclusive holder is active then.) -/
theorem c2_read_access_bounded (wa : Nat → Bool) (t : Nat)
    (hbusy : ∀ u, u < LockObj.minBlockTime.toNat → wa (t + u) = true) :
    LockObj.getReadAccess wa t = (false, t + LockObj.minBlockTime.toNat)
    ∧ (∀ g : Nat → Bool, ∀ u : Nat,
        (LockObj.getReadAccess g u).2 ≤ u + LockObj.minBlockTime.toNat)
    ∧ SLAObj.getReadAccess wa t = (! wa t, t) := by
  refine ⟨?_, ?_, rfl⟩
  · unfold LockObj.getReadAccess
    exact LockObj.tryAcquireFor_all_busy _ t _
      (fun u hu => by simp [hbusy u hu])
  · intro g u
    exact LockObj.tryAcquireFor_completion_le _ u _

/-- C2 witness: the amended statement evaluated in the environment where
an exclusive holder is active at every instant — the 10 ms read attempt
issued at instant 0 fails at instant 10. -/
theorem c2_read_access_bounded_witness :
    LockObj.getReadAccess (fun _ => true) 0 = (false, 0 + LockObj.minBlockTime.toNat)
    ∧ (∀ g : Nat → Bool, ∀ u : Nat,
        (LockObj.getReadAccess g u).2 ≤ u + LockObj.minBlockTime.toNat)
    ∧ SLAObj.getReadAccess (fun _ => true) 0 = (! true, 0) :=
  c2_read_access_bounded (fun _ => true) 0 (fun _ _ => rfl)

namespace RSMSys

/-- The race state `a8` — writer 1 holds the exclusive lock while
`m_writer_waiting` is `false` — is reachable from the initial state by the
two-writer interleaving described at the definitions of `a0`–`a8`. -/
theorem reach_a8 : Reach a8 :=
  Reach.tail
    (Reach.tail
      (Reach.tail
        (Reach.tail
          (Reach.tail
            (Reach.tail
              (Reach.tail
                (Reach.tail Reach.start (Step.lockSetFlag a0 0 (by decide)))
                (Step.lockPassReaders a1 0 (by decide) (by decide)))
              (Step.lockAcquire a2 0 (by decide) (by decide)))
            (Step.lockSetFlag a3 1 (by decide)))
          (Step.lockPassReaders a4 1 (by decide) (by decide)))
        (Step.unlockClearFlag a5 0 (by decide)))
      (Step.unlockGiveSem a6 0 (by decide)))
    (Step.lockAcquire a7 1 (by decide) (by decide))

end RSMSys

/-- C1: the claimed safety invariant fails on the code.  With two threads
calling `lock()` concurrently, the state `a9` is reachable: writer 1 holds
the exclusive lock (its `lock()` has returned and it has not called
`unlock()`), yet one shared holder coexists and `m_reader_count = 1`.  The
race: `unlock()` (lines 84-88) clears `m_writer_waiting` and gives the
write semaphore while the second writer is already past the reader check
and blocked at line 56, so that writer acquires exclusive ownership with
the flag clear and readers are no longer excluded. -/
theorem c1_shared_and_exclusive_coexist :
    RSMSys.Reach RSMSys.a9
    ∧ RSMSys.isHolding (RSMSys.a9.wpc 1) = true
    ∧ RSMSys.a9.holders = 1
    ∧ RSMSys.a9.reader_count = 1 :=
  ⟨RSMSys.Reach.tail RSMSys.reach_a8
      (RSMSys.Step.sharedAcquire RSMSys.a8 (by decide)),
    by decide, by decide, by decide⟩

/-- C3: the claimed writer-priority guarantee fails on the code.  From the
reachable state `a8` (where `m_writer_waiting = false`), writer 0 sets the
writer-waiting flag from `false` to `true` (the `a8 → b9` step, lines
44-45 of `lock()`), passes the reader check, and then stays blocked on the
write semaphore — its program counter is `semWait` in `b10`, `b11` and
`b12`, so it never acquires, let alone releases, the exclusive lock.　Yet
writer 1's `unlock()` clears the flag writer 0 had set (`b10 → b11`), and
a new shared acquisition completes (`b11 → b12`, `holders` goes from 0 to
1) before the flag-setting writer ever acquired and released the lock. -/
theorem c3_writer_priority_violated :
    RSMSys.Reach RSMSys.a8
    ∧ RSMSys.a8.writer_waiting = false
    ∧ RSMSys.Step RSMSys.a8 RSMSys.b9
    ∧ RSMSys.b9.wpc 0 = .flagSet
    ∧ RSMSys.b9.writer_waiting = true
    ∧ RSMSys.Step RSMSys.b9 RSMSys.b10
    ∧ RSMSys.b10.wpc 0 = .semWait
    ∧ RSMSys.Step RSMSys.b10 RSMSys.b11
    ∧ RSMSys.b11.wpc 0 = .semWait
    ∧ RSMSys.Step RSMSys.b11 RSMSys.b12
    ∧ RSMSys.b12.wpc 0 = .semWait
    ∧ RSMSys.b11.holders = 0
    ∧ RSMSys.b12.holders = 1 :=
  ⟨RSMSys.reach_a8, by decide,
    RSMSys.Step.lockSetFlag RSMSys.a8 0 (by decide), by decide, by decide,
    RSMSys.Step.lockPassReaders RSMSys.b9 0 (by decide) (by decide), by decide,
    RSMSys.Step.unlockClearFlag RSMSys.b10 1 (by decide), by decide,
    RSMSys.Step.sharedAcquire RSMSys.b11 (by decide), by decide,
    by decide, by decide⟩

/-- C10 counterexample: in the reachable state `a8`, writer 1 holds the
exclusive lock, having acquired it through `lock()`, while
`writer_waiting = false` — and a shared acquisition (`try_lock_shared`
succeeding) is possible from that state.  So "whenever the exclusive lock
is held — whether acquired by `lock()` or `try_lock()` — the invariant
`writer_waiting == true` holds and no `try_lock_shared()` can succeed" is
false as stated: it fails for a `lock()`-acquired holder when another
writer's `unlock()` intervenes. -/
theorem c10_counterexample_lock_holder_flag_clear :
    RSMSys.Reach RSMSys.a8
    ∧ RSMSys.a8.wpc 1 = .holdingL
    ∧ RSMSys.a8.writer_waiting = false
    ∧ RSMSys.Step RSMSys.a8 RSMSys.a9
    ∧ RSMSys.a9.holders = RSMSys.a8.holders + 1 :=
  ⟨RSMSys.reach_a8, by decide, by decide,
    RSMSys.Step.sharedAcquire RSMSys.a8 (by decide), by decide⟩

namespace RSMSys

/-- A program counter equal to a value whose `isOwner` evaluates to `true`
makes the thread an owner of the write semaphore. -/
theorem isOwner_of_eq {n : Nat} (f : Fin n → WPc) (i : Fin n) (p : WPc)
    (h : f i = p) (hp : isOwner p = true) : isOwner (f i) = true := by
  rw [h]; exact hp

/-- Every reachable state of the interleaved system satisfies `Inv`:
`m_reader_count` equals the number of shared holders (so it is never
negative), the binary write semaphore has at most one owner, it is
available exactly when unowned, and a `try_lock`-acquired holder implies
the writer-waiting flag is set. -/
theorem reach_inv {n : Nat} {s : Sys n} (h : Reach s) : Inv s := by
  induction h with
  | start =>
      dsimp only [Inv, init]
      refine ⟨rfl, ?_, ⟨fun _ _ => rfl, fun _ => rfl⟩, ?_⟩
      · intro i j hi _
        exact Bool.noConfusion hi
      · intro i hi
        exact WPc.noConfusion hi
  | tail hr hst ih =>
      obtain ⟨ih1, ih2, ih3, ih4⟩ := ih
      cases hst with
      | lockSetFlag i hidle =>
          dsimp only [Inv]
          refine ⟨ih1, ?_, ?_, fun a _ => rfl⟩
          · intro a b ha hb
            rcases eq_or_ne a i with hai | hai
            · rw [hai, upd_at] at ha
              exact Bool.noConfusion ha
            · rw [upd_ne _ _ _ _ hai] at ha
              rcases eq_or_ne b i with hbi | hbi
              · rw [hbi, upd_at] at hb
                exact Bool.noConfusion hb
              · rw [upd_ne _ _ _ _ hbi] at hb
                exact ih2 a b ha hb
          · constructor
            · intro hsem a
              rcases eq_or_ne a i with hai | hai
              · rw [hai, upd_at]; rfl
              · rw [upd_ne _ _ _ _ hai]; exact ih3.mp hsem a
            · intro hall
              refine ih3.mpr (fun a => ?_)
              rcases eq_or_ne a i with hai | hai
              · rw [hai, hidle]; rfl
              · have hx := hall a
                rwa [upd_ne _ _ _ _ hai] at hx
      | lockPassReaders i hflag hrc =>
          dsimp only [Inv]
          refine ⟨ih1, ?_, ?_, ?_⟩
          · intro a b ha hb
            rcases eq_or_ne a i with hai | hai
            · rw [hai, upd_at] at ha
              exact Bool.noConfusion ha
            · rw [upd_ne _ _ _ _ hai] at ha
              rcases eq_or_ne b i with hbi | hbi
              · rw [hbi, upd_at] at hb
                exact Bool.noConfusion hb
              · rw [upd_ne _ _ _ _ hbi] at hb
                exact ih2 a b ha hb
          · constructor
            · intro hsem a
              rcases eq_or_ne a i with hai | hai
              · rw [hai, upd_at]; rfl
              · rw [upd_ne _ _ _ _ hai]; exact ih3.mp hsem a
            · intro hall
              refine ih3.mpr (fun a => ?_)
              rcases eq_or_ne a i with hai | hai
              · rw [hai, hflag]; rfl
              · have hx := hall a
                rwa [upd_ne _ _ _ _ hai] at hx
          · intro a ha
            rcases eq_or_ne a i with hai | hai
            · rw [hai, upd_at] at ha
              exact WPc.noConfusion ha
            · rw [upd_ne _ _ _ _ hai] at ha
              exact ih4 a ha
      | lockAcquire i hsw hsem =>
          have hno := ih3.mp hsem
          dsimp only [Inv]
          refine ⟨ih1, ?_, ?_, ?_⟩
          · intro a b ha hb
            rcases eq_or_ne a i with hai | hai
            · rcases eq_or_ne b i with hbi | hbi
              · rw [hai, hbi]
              · rw [upd_ne _ _ _ _ hbi, hno b] at hb
                exact Bool.noConfusion hb
            · rw [upd_ne _ _ _ _ hai, hno a] at ha
              exact Bool.noConfusion ha
          · constructor
            · intro hcontra
              exact Bool.noConfusion hcontra
            · intro hall
              have hx := hall i
              rw [upd_at] at hx
              exact Bool.noConfusion hx
          · intro a ha
            rcases eq_or_ne a i with hai | hai
            · rw [hai, upd_at] at ha
              exact WPc.noConfusion ha
            · rw [upd_ne _ _ _ _ hai] at ha
              exact ih4 a ha
      | tryLockOk i hidle hrc hsem =>
          have hno := ih3.mp hsem
          dsimp only [Inv]
          refine ⟨ih1, ?_, ?_, fun a _ => rfl⟩
          · intro a b ha hb
            rcases eq_or_ne a i with hai | hai
            · rcases eq_or_ne b i with hbi | hbi
              · rw [hai, hbi]
              · rw [upd_ne _ _ _ _ hbi, hno b] at hb
                exact Bool.noConfusion hb
            · rw [upd_ne _ _ _ _ hai, hno a] at ha
              exact Bool.noConfusion ha
          · constructor
            · intro hcontra
              exact Bool.noConfusion hcontra
            · intro hall
              have hx := hall i
              rw [upd_at] at hx
              exact Bool.noConfusion hx
      | unlockClearFlag i hhold =>
          have howni := owner_of_holding _ hhold
          dsimp only [Inv]
          refine ⟨ih1, ?_, ?_, ?_⟩
          · intro a b ha hb
            rcases eq_or_ne a i with hai | hai
            · rcases eq_or_ne b i with hbi | hbi
              · rw [hai, hbi]
              · rw [upd_ne _ _ _ _ hbi] at hb
                rw [hai]
                exact (ih2 b i hb howni).symm
            · rw [upd_ne _ _ _ _ hai] at ha
              rcases eq_or_ne b i with hbi | hbi
              · rw [hbi]
                exact ih2 a i ha howni
              · rw [upd_ne _ _ _ _ hbi] at hb
                exact ih2 a b ha hb
          · constructor
            · intro hcontra
              have hx := ih3.mp hcontra i
              rw [howni] at hx
              exact Bool.noConfusion hx
            · intro hall
              have hx := hall i
              rw [upd_at] at hx
              exact Bool.noConfusion hx
          · intro a ha
            rcases eq_or_ne a i with hai | hai
            · rw [hai, upd_at] at ha
              exact WPc.noConfusion ha
            · rw [upd_ne _ _ _ _ hai] at ha
              exact absurd (ih2 a i (isOwner_of_eq _ _ _ ha rfl) howni) hai
      | unlockGiveSem i huh =>
          have howni := isOwner_of_eq _ _ _ huh rfl
          dsimp only [Inv]
          refine ⟨ih1, ?_, ?_, ?_⟩
          · intro a b ha hb
            rcases eq_or_ne a i with hai | hai
            · rw [hai, upd_at] at ha
              exact Bool.noConfusion ha
            · rw [upd_ne _ _ _ _ hai] at ha
              rcases eq_or_ne b i with hbi | hbi
              · rw [hbi, upd_at] at hb
                exact Bool.noConfusion hb
              · rw [upd_ne _ _ _ _ hbi] at hb
                exact ih2 a b ha hb
          · constructor
            · intro _ a
              rcases eq_or_ne a i with hai | hai
              · rw [hai, upd_at]; rfl
              · rw [upd_ne _ _ _ _ hai]
                cases how : isOwner _ with
                | false => rfl
                | true => exact absurd (ih2 a i how howni) hai
            · intro _
              rfl
          · intro a ha
            rcases eq_or_ne a i with hai | hai
            · rw [hai, upd_at] at ha
              exact WPc.noConfusion ha
            · rw [upd_ne _ _ _ _ hai] at ha
              exact ih4 a ha
      | sharedAcquire hflag =>
          dsimp only [Inv]
          refine ⟨?_, ih2, ih3, fun a ha => ih4 a ha⟩
          omega
      | sharedRelease hpos =>
          dsimp only [Inv]
          refine ⟨?_, ih2, ih3, fun a ha => ih4 a ha⟩
          omega

end RSMSys

namespace RSMSys

/-- The single-writer state `w1`, reached by one successful `try_lock()`
from the initial state, is reachable. -/
theorem reach_w1 : Reach w1 :=
  Reach.tail Reach.start
    (Step.tryLockOk (init 1) 0 (by decide) (by decide) (by decide))

end RSMSys

/-- C10 amended: a successful `try_lock()` sets the writer-waiting flag to
`true` (its atomic step does so together with taking the write semaphore),
and while a `try_lock`-acquired holder holds the exclusive lock the flag
is `true`, no step can increase the number of shared holders (so no
`try_lock_shared()`/`lock_shared()` can complete), and the only step that
clears the flag is that same holder's own `unlock()`.  The corresponding
consequence for a `lock()`-acquired holder is false as stated (see the
counterexample): it can hold the exclusive lock with the flag already
cleared by another writer's `unlock()`. -/
theorem c10_try_lock_sets_and_keeps_flag {n : Nat} (s : RSMSys.Sys n)
    (hs : RSMSys.Reach s) (i : Fin n) (hi : s.wpc i = .holdingT) :
    s.writer_waiting = true
    ∧ (∀ t : RSMSys.Sys n, RSMSys.Step s t → t.holders ≤ s.holders)
    ∧ (∀ t : RSMSys.Sys n, RSMSys.Step s t → t.writer_waiting = false →
        t.wpc i = .unlockedHalf) := by
  obtain ⟨inv1, inv2, inv3, inv4⟩ := RSMSys.reach_inv hs
  have hflag := inv4 i hi
  refine ⟨hflag, ?_, ?_⟩
  · intro t hst
    cases hst with
    | lockSetFlag j hj => exact Nat.le_refl _
    | lockPassReaders j hj hrc => exact Nat.le_refl _
    | lockAcquire j hj hsem => exact Nat.le_refl _
    | tryLockOk j hj hrc hsem => exact Nat.le_refl _
    | unlockClearFlag j hj => exact Nat.le_refl _
    | unlockGiveSem j hj => exact Nat.le_refl _
    | sharedAcquire hf =>
        rw [hflag] at hf
        exact Bool.noConfusion hf
    | sharedRelease hp => exact Nat.sub_le _ _
  · intro t hst hflagf
    cases hst with
    | lockSetFlag j hj =>
        have hx : (true : Bool) = false := hflagf
        exact Bool.noConfusion hx
    | lockPassReaders j hj hrc =>
        have hx : s.writer_waiting = false := hflagf
        rw [hflag] at hx
        exact Bool.noConfusion hx
    | lockAcquire j hj hsem =>
        have hx : s.writer_waiting = false := hflagf
        rw [hflag] at hx
        exact Bool.noConfusion hx
    | tryLockOk j hj hrc hsem =>
        have hx : (true : Bool) = false := hflagf
        exact Bool.noConfusion hx
    | unlockClearFlag j hj =>
        have hij := inv2 i j (RSMSys.isOwner_of_eq _ _ _ hi rfl)
          (RSMSys.owner_of_holding _ hj)
        show RSMSys.upd s.wpc j .unlockedHalf i = .unlockedHalf
        rw [hij]
        exact RSMSys.upd_at _ _ _
    | unlockGiveSem j hj =>
        have hx : s.writer_waiting = false := hflagf
        rw [hflag] at hx
        exact Bool.noConfusion hx
    | sharedAcquire hf =>
        rw [hflag] at hf
        exact Bool.noConfusion hf
    | sharedRelease hp =>
        have hx : s.writer_waiting = false := hflagf
        rw [hflag] at hx
        exact Bool.noConfusion hx

/-- C10 witness: the amended statement evaluated at the concrete reachable
single-writer state `w1`, in which the writer has just completed a
successful `try_lock()`. -/
theorem c10_try_lock_sets_and_keeps_flag_witness :
    RSMSys.w1.writer_waiting = true
    ∧ (∀ t : RSMSys.Sys 1, RSMSys.Step RSMSys.w1 t → t.holders ≤ RSMSys.w1.holders)
    ∧ (∀ t : RSMSys.Sys 1, RSMSys.Step RSMSys.w1 t → t.writer_waiting = false →
        t.wpc 0 = .unlockedHalf) :=
  c10_try_lock_sets_and_keeps_flag RSMSys.w1 RSMSys.reach_w1 0 (by decide)

namespace RSM

/-- Behaviour of the `try_lock_shared` retry loop, for any contention
pattern: a `false` result leaves the mutex fields unchanged; a `true`
result implies the writer-waiting flag was clear and the only change is
`m_reader_count` incremented by one; and the number of take attempts is
bounded by the remaining time budget (each failed attempt consumes at
least one time unit). -/
theorem try_lock_shared_go_spec (acq : Nat → Bool) (wait : Nat → Nat)
    (s : MState) (n elapsed : Nat) :
    ((try_lock_shared_go acq wait s n elapsed).1 = false →
        (try_lock_shared_go acq wait s n elapsed).2.1 = s)
    ∧ ((try_lock_shared_go acq wait s n elapsed).1 = true →
        s.writer_waiting = false
        ∧ (try_lock_shared_go acq wait s n elapsed).2.1
            = { s with reader_count := s.reader_count + 1 })
    ∧ (try_lock_shared_go acq wait s n elapsed).2.2
        ≤ n + (max_wait - elapsed) := by
  induction n, elapsed using try_lock_shared_go.induct acq wait s with
  | case1 n elapsed h =>
      rw [try_lock_shared_go]
      simp [h]
  | case2 n elapsed h hacq hw =>
      rw [try_lock_shared_go]
      simp [h, hacq, hw]
      omega
  | case3 n elapsed h hacq hw =>
      rw [try_lock_shared_go]
      simp [h, hacq, hw]
      omega
  | case4 n elapsed h hacq ih =>
      rw [try_lock_shared_go, dif_neg h, if_neg (by simp [hacq])]
      refine ⟨ih.1, ih.2.1, ?_⟩
      have hb := ih.2.2
      omega

end RSM

/-- C6: `try_lock_shared` makes a bounded number of attempts (at most
`max_wait`, the 50 ms budget divided by the at-least-one-unit cost of a
failed attempt) within the bounded `max_wait = 50` ms window; on a
successful acquisition of the bookkeeping mutex it fails fast — returning
`false` with all state unchanged — when the writer-waiting flag is set,
and otherwise increments `m_reader_count` and returns `true`; exhausting
the retry budget returns `false` with all state unchanged rather than
crashing.  The embedding is a total function for every contention oracle,
so the call always terminates. -/
theorem c6_try_lock_shared_bounded_retry (acq : Nat → Bool)
    (wait : Nat → Nat) (s : RSM.MState) :
    ((RSM.try_lock_shared acq wait s).1 = false →
        (RSM.try_lock_shared acq wait s).2.1 = s)
    ∧ ((RSM.try_lock_shared acq wait s).1 = true →
        s.writer_waiting = false
        ∧ (RSM.try_lock_shared acq wait s).2.1
            = { s with reader_count := s.reader_count + 1 })
    ∧ (s.writer_waiting = true → (RSM.try_lock_shared acq wait s).1 = false)
    ∧ (RSM.try_lock_shared acq wait s).2.2 ≤ RSM.max_wait
    ∧ RSM.max_wait = 50 := by
  have h := RSM.try_lock_shared_go_spec acq wait s 0 0
  refine ⟨h.1, h.2.1, ?_, ?_, rfl⟩
  · intro hw
    cases hr : (RSM.try_lock_shared acq wait s).1 with
    | false => rfl
    | true =>
        have hx := (h.2.1 hr).1
        rw [hw] at hx
        exact Bool.noConfusion hx
  · have hb := h.2.2
    show (RSM.try_lock_shared_go acq wait s 0 0).2.2 ≤ RSM.max_wait
    omega
